import Mathlib

/-!
Verification of the training-orchestration core of torchdeepretina
(`torchdeepretina/training.py` and `torchdeepretina/utils.py`).

The shallow embedding below models the hyperparameter dictionary, the
early-stopping monitor (`Trainer.stop_early`), the per-fold epoch loop of
`Trainer.train_loop` (training phase accumulation, validation, the
integrated-gradient pruning block, checkpointing and the end-of-epoch
break), the optimization-object factory (`get_optim_objs`), the sweep
queue construction (`fill_hyper_q`), and the top-level error handling of
`Trainer.train` / `hyper_search` / `Trainer.retinotopic_loop`.

Numeric collaborators (the model's forward/backward passes, the loss
values, validation correlations, `tdrprune.prune_channels`, the
learning-rate schedulers' internal policies) are external to the
orchestration core and are represented as oracles (function parameters),
exactly at the call boundaries the Python code uses.  Python floats are
modelled as rationals, with `none` standing for a non-finite value
(NaN or an infinity) in the places where the code only tests
`math.isnan(x) or math.isinf(x)`.
-/

set_option maxRecDepth 16000

namespace TDR

/-- Values stored in a Python hyperparameter dict (`hyps`), restricted to
the shapes the orchestration code of `training.py` branches on.
`pynone` is Python's `None`. -/
inductive HVal where
  | pynone : HVal
  | int (n : ℤ) : HVal
  | rat (q : ℚ) : HVal
  | str (s : String) : HVal
  | bool (b : Bool) : HVal
  | ilist (l : List ℤ) : HVal
  | slist (l : List String) : HVal
  deriving DecidableEq

/-- A Python dict from option name to value.  `none` means the key is
absent (so `k in hyps` is `(c k).isSome`); a present key may still hold
the value `HVal.pynone`. -/
abbrev Config := String → Option HVal

/-- Python dict assignment `hyps[k] = v`. -/
def setKey (c : Config) (k : String) (v : HVal) : Config :=
  fun k' => if k' = k then some v else c k'

/-- `utils.try_key(dict_, key, default)` (utils.py lines 609-621): the
stored value when the key is present, otherwise the default. -/
def tryKey (c : Config) (k : String) (d : HVal) : HVal :=
  (c k).getD d

/-- Python truthiness of a stored value, as used by conditions such as
`if hyps['prune']:`. -/
def hvalTruthy : HVal → Bool
  | .pynone => false
  | .int n => n != 0
  | .rat q => q != 0
  | .str s => s != ""
  | .bool b => b
  | .ilist l => !l.isEmpty
  | .slist l => !l.isEmpty

/-- Python `str(v)` for the value shapes above (used when building the
search-key string).  Integer printing matches Python; the remaining
shapes are approximations and are not exercised by the claims. -/
def hvalStr : HVal → String
  | .pynone => "None"
  | .int n => toString n
  | .rat q => toString q
  | .str s => s
  | .bool b => if b then ("True") else ("False")
  | .ilist l => toString l
  | .slist l => toString l

/-- Python exceptions relevant to the orchestration control flow. -/
inductive PyErr where
  | indexError (msg : String)
  | nameError (name : String)
  | keyError (key : String)
  | typeError (msg : String)
  deriving DecidableEq

/-- Python `hyps[k]`: the value when present, a KeyError otherwise. -/
def getKey (c : Config) (k : String) : Except PyErr HVal :=
  match c k with
  | some v => .ok v
  | none => .error (.keyError k)

/-! ## The early-stopping monitor (`Trainer.stop_early`) -/

/-- State of the Trainer's early-stopping monitor: the `early_stopping`
patience, the `stop_tolerance`, `prev_acc` (Python `None` before the
first observation) and `stop_count`. -/
structure EarlyStopState where
  earlyStopping : ℤ
  tolerance : ℚ
  prevAcc : Option ℚ
  stopCount : ℤ
  deriving DecidableEq

/-- `Trainer.stop_early` (training.py lines 65-84), returning the updated
monitor state together with the boolean stop signal.  Note the source has
no `else` between the patience check and the fall-through that resets
`stop_count` and overwrites `prev_acc`. -/
def stopEarly (s : EarlyStopState) (acc : ℚ) : EarlyStopState × Bool :=
  if s.earlyStopping ≤ 0 then (s, false)
  else
    match s.prevAcc with
    | none => ({ s with prevAcc := some acc, stopCount := 0 }, false)
    | some prev =>
      if acc - prev < s.tolerance then
        if s.stopCount + 1 ≥ s.earlyStopping then
          ({ s with stopCount := s.stopCount + 1 }, true)
        else
          ({ s with stopCount := 0, prevAcc := some acc }, false)
      else
        ({ s with stopCount := 0, prevAcc := some acc }, false)

/-- Feed a list of metrics to the monitor, one `stop_early` call per
element, collecting each call's returned signal. -/
def runObserve (s : EarlyStopState) : List ℚ → List Bool
  | [] => []
  | a :: rest =>
    let r := stopEarly s a
    r.2 :: runObserve r.1 rest

/-! ## Floats that may go non-finite, and the training batch loop -/

/-- A Python float in the places where only finiteness matters: `some q`
is a finite value, `none` stands for NaN or ±inf, so that
`math.isnan(x) or math.isinf(x)` is `Option.isNone`. -/
abbrev EF := Option ℚ

/-- Addition on such values; a non-finite operand makes the sum
non-finite (finite overflow to inf is not modelled). -/
def efAdd : EF → EF → EF
  | some a, some b => some (a + b)
  | _, _ => none

/-- Division of an accumulated loss by an integer count, as in
`avg_loss = epoch_loss/n_loops`.  The source would raise
ZeroDivisionError on a zero count; here division by zero follows the
rational convention and is never exercised. -/
def efDivNat (a : EF) (n : ℕ) : EF :=
  a.map (fun q => q / (n : ℚ))

/-- The accumulation in the per-epoch training batch loop (training.py
lines 194-223): each batch's loss is added to `epoch_loss`, and the loop
breaks as soon as the accumulated value is NaN or inf.  Returns the final
accumulated loss and the number of batches processed. -/
def runBatchesGo (acc : EF) : List EF → EF × ℕ
  | [] => (acc, 0)
  | l :: ls =>
    if (efAdd acc l).isNone then (efAdd acc l, 1)
    else ((runBatchesGo (efAdd acc l) ls).1, (runBatchesGo (efAdd acc l) ls).2 + 1)

/-- The batch loop started from `epoch_loss = 0`. -/
def runBatches (ls : List EF) : EF × ℕ := runBatchesGo (some 0) ls

/-! ## The epoch loop of `Trainer.train_loop`

States, one step of the `while not stop_training` body (training.py
lines 177-391), and the loop itself.  Type parameters: `M` model state
dicts, `O` optimizer state dicts, `S` scheduler states, `ZD` the
zero-channel dict, `P` the fields of `prune_dict` that only
`tdrprune.prune_channels` reads (`prev_state_dict`, `cur_chan`,
`cur_layer`). -/

/-- The `prune_dict` threaded between pruning events (training.py lines
291-313).  The fields the orchestrator itself reads or writes are
explicit; the rest is opaque. -/
structure PruneD (ZD P : Type) where
  zeroDict : ZD
  prevLr : ℚ
  prevAcc : ℚ
  minAcc : ℚ
  rest : P
  deriving DecidableEq

/-- Everything fixed during one cross-validation fold of
`Trainer.train_loop`: the resolved hyperparameters the loop reads, the
pre-training snapshots (`og_state_dict`, `og_optim_dict`), and oracles
for the external collaborators (the numeric effect of an epoch's
optimizer steps, the batch losses, validation metrics, the scheduler,
`tdrprune.zero_chans` and `tdrprune.prune_channels`). -/
structure RunCtx (M O S ZD P : Type) where
  nEpochs0 : ℤ
  hypsPruneFlag : Bool
  resetSd : Bool
  resetLr : Bool
  pruneIntvl : ℤ
  lr0 : ℚ
  minPruneAcc : ℚ
  nLoops : ℕ
  ogModel : M
  ogOptim : O
  zeroDict0 : ZD
  openLayers0 : ℕ
  restInit : P
  sched0 : S
  applyMask : M → ZD → M
  batches : ℤ → List EF
  trainFx : ℤ → M → O → M × O
  valLossF : ℤ → EF
  valAccF : ℤ → ℚ
  schedStep : S → ℚ → ℚ → S × ℚ
  pruneFn : M → ℚ → ℚ → PruneD ZD P → ℕ → PruneD ZD P × ℕ

/-- The mutable state of the epoch loop.  `curLr` is the Python local
`cur_lr`, last assigned at the previous epoch's checkpoint step and
unbound (`none`) before the first epoch. -/
structure RunState (M O S ZD P : Type) where
  epoch : ℤ
  stopTraining : Bool
  hypsPrune : Bool
  nEpochs : ℤ
  model : M
  optim : O
  lr : ℚ
  sched : S
  zeroDict : ZD
  openLayers : ℕ
  pruneD : Option (PruneD ZD P)
  esState : EarlyStopState
  curLr : Option ℚ

/-- The fields of the end-of-epoch `save_dict` (training.py lines
362-387) that the claims inspect. -/
structure Checkpoint (M O ZD : Type) where
  epoch : ℤ
  loss : EF
  valLoss : EF
  valAcc : ℚ
  zeroDict : ZD
  curLr : ℚ
  modelSd : M
  optimSd : O
  deriving DecidableEq

variable {M O S ZD P : Type}

/-- One iteration of the epoch-loop body (training.py lines 177-391):
increment `epoch`, set `stop_training` from the terminal condition, run
the training batch loop, run validation (feeding `val_acc` to
`stop_early` and the scheduler), run the integrated-gradient pruning
block when due, and emit the end-of-epoch checkpoint.  Returns the new
state, the checkpoint, and whether line 390's break fires
(`isnan(avg_loss) or isinf(avg_loss) or stop`).  The `exp_name == "test"`
debug branches and the epoch log strings are not modelled. -/
def epochStep (ctx : RunCtx M O S ZD P) (s : RunState M O S ZD P) :
    RunState M O S ZD P × Checkpoint M O ZD × Bool :=
  let e := s.epoch + 1
  let stopT := decide (e ≥ s.nEpochs) && !s.hypsPrune
  -- Train phase: batch-loss accumulation with the non-finite break; the
  -- numeric effect of the executed optimizer steps is the oracle
  -- `trainFx`, and `zero_chans` is applied after every step, hence also
  -- after the last one.
  let bl := runBatches (ctx.batches e)
  let avgLoss := efDivNat bl.1 ctx.nLoops
  let mo := ctx.trainFx e s.model s.optim
  let m1 := ctx.applyMask mo.1 s.zeroDict
  let o1 := mo.2
  -- Validation phase.
  let vLoss := ctx.valLossF e
  let vAcc := ctx.valAccF e
  let es1 := stopEarly s.esState vAcc
  let stop := es1.2
  let sc1 := ctx.schedStep s.sched vAcc s.lr
  let lr1 := sc1.2
  let base : RunState M O S ZD P :=
    { epoch := e
      stopTraining := stopT
      hypsPrune := s.hypsPrune
      nEpochs := s.nEpochs
      model := m1
      optim := o1
      lr := lr1
      sched := sc1.1
      zeroDict := s.zeroDict
      openLayers := s.openLayers
      pruneD := s.pruneD
      esState := es1.1
      curLr := s.curLr }
  -- Integrated-gradient pruning block (training.py lines 287-341).
  let pruneCond := s.hypsPrune && decide (e ≥ s.nEpochs - 1)
  let intvlCond := decide ((e - s.nEpochs).emod ctx.pruneIntvl = 0)
  let s1 :=
    if pruneCond && intvlCond then
      -- Re-initialize prune_dict early in the pruning phase; reading the
      -- previous epoch's cur_lr (a NameError in the source if no epoch
      -- has reached the checkpoint step yet, modelled as 0).
      let pd0 : PruneD ZD P :=
        if e ≤ s.nEpochs + ctx.pruneIntvl then
          { zeroDict := s.zeroDict
            prevLr := s.curLr.getD 0
            prevAcc := -1
            minAcc := ctx.minPruneAcc
            rest := ctx.restInit }
        else
          s.pruneD.getD
            { zeroDict := s.zeroDict
              prevLr := 0
              prevAcc := -1
              minAcc := ctx.minPruneAcc
              rest := ctx.restInit }
      let pf := ctx.pruneFn m1 vAcc lr1 pd0 s.openLayers
      let stopT1 := decide (pf.2 = 0)
      let m2 := if ctx.resetSd then ctx.ogModel else m1
      let o2 := if ctx.resetSd then ctx.ogOptim else o1
      let lrA := if ctx.resetSd then ctx.lr0 else pf.1.prevLr
      let lrB := if ctx.resetLr && decide (pf.1.prevAcc ≠ vAcc) then ctx.lr0 else lrA
      let m3 := ctx.applyMask m2 pf.1.zeroDict
      if stopT1 && ctx.resetSd then
        -- Pruning phase complete with reset_sd: train out the final
        -- pruned model for the normal number of epochs.
        { base with
          model := m3
          optim := o2
          lr := lrB
          zeroDict := pf.1.zeroDict
          openLayers := pf.2
          pruneD := some pf.1
          stopTraining := false
          hypsPrune := false
          nEpochs := ctx.nEpochs0 + e }
      else
        { base with
          model := m3
          optim := o2
          lr := lrB
          zeroDict := pf.1.zeroDict
          openLayers := pf.2
          pruneD := some pf.1
          stopTraining := stopT1 }
    else base
  let cp : Checkpoint M O ZD :=
    { epoch := e
      loss := avgLoss
      valLoss := vLoss
      valAcc := vAcc
      zeroDict := s1.zeroDict
      curLr := s1.lr
      modelSd := s1.model
      optimSd := s1.optim }
  let s2 := { s1 with curLr := some s1.lr }
  (s2, cp, avgLoss.isNone || stop)

/-- The state at entry to the epoch loop (training.py lines 138-176):
`epoch = -1`, `stop_training = False`, and with pruning and `reset_sd`
both set the epoch budget starts at `prune_intvl`. -/
def initState (ctx : RunCtx M O S ZD P) (es0 : EarlyStopState) :
    RunState M O S ZD P :=
  { epoch := -1
    stopTraining := false
    hypsPrune := ctx.hypsPruneFlag
    nEpochs := if ctx.hypsPruneFlag && ctx.resetSd then ctx.pruneIntvl else ctx.nEpochs0
    model := ctx.ogModel
    optim := ctx.ogOptim
    lr := ctx.lr0
    sched := ctx.sched0
    zeroDict := ctx.zeroDict0
    openLayers := ctx.openLayers0
    pruneD := none
    esState := es0
    curLr := none }

/-- The `while not stop_training` loop (training.py lines 175-391),
producing the list of end-of-epoch checkpoints.  `fuel` bounds the
number of iterations (the source loop is unbounded while pruning is
active). -/
def runLoop (ctx : RunCtx M O S ZD P) :
    RunState M O S ZD P → ℕ → List (Checkpoint M O ZD)
  | _, 0 => []
  | s, fuel + 1 =>
    if s.stopTraining then []
    else
      (epochStep ctx s).2.1 ::
        (if (epochStep ctx s).2.2 then [] else runLoop ctx (epochStep ctx s).1 fuel)

/-! ## `get_optim_objs` (training.py lines 874-911) -/

/-- The object `get_optim_objs` binds as the run's loss function.  The
loss name is resolved through the module's `globals()` dict, so besides
the two loss classes imported at training.py line 5 ANY other
module-level name can be named and zero-arg constructed — `Trainer`,
`NullScheduler`, `deque`, anything star-imported from
`torchdeepretina.models`, … — in which case the run proceeds with that
non-loss object (`otherGlobal`); only a name with no module-level
binding raises KeyError at the lookup. -/
inductive LossFn where
  | poissonNLL (logInput : HVal)
  | mse
  | otherGlobal (name : String)
  deriving DecidableEq

/-- The learning-rate schedulers `get_optim_objs` can build, carrying the
configured hyperparameters it passes to their constructors. -/
inductive Sched where
  | reduceLROnPlateau (factor patience threshold : HVal)
  | multiStepLR (milestones : HVal)
  | nullSched
  deriving DecidableEq

/-- The Adam optimizer construction: only the configured hyperparameters
passed to it are recorded. -/
structure Optim where
  lr : HVal
  weightDecay : HVal
  deriving DecidableEq

/-- `get_optim_objs` (training.py lines 874-911): default the loss name
to PoissonNLLLoss when unset, resolve the loss name through the module's
`globals()` dict and zero-arg construct the result, build the Adam
optimizer from `hyps['lr']` and `hyps['l2']`, and build the scheduler:
`ReduceLROnPlateau` and `MultiStepLR` by name, and for every other
configured name fall through to the else branch, overwriting
`hyps['scheduler']` with `"NullScheduler"` and returning the no-op
scheduler.  The two loss-class names are known to be bound (the imports
at training.py line 5, assumed unshadowed by the later star import); the
rest of the module namespace — which includes whatever
`torchdeepretina.models` star-exports, code outside src/ — is the oracle
`globalsFx`: `.ok ()` when the name is bound and its zero-arg
construction succeeds (the resulting non-loss object is then used as the
loss function), `.error (.keyError name)` when the name is unbound, and
`.error (.typeError …)` when it is bound but not zero-arg callable.
Returns the (possibly updated) hyps with the three built objects. -/
def getOptimObjs (globalsFx : String → Except PyErr Unit) (hyps : Config) :
    Except PyErr (Config × Optim × Sched × LossFn) := do
  let hyps := if (hyps ("lossfxn")).isSome then hyps
              else setKey hyps ("lossfxn") (.str ("PoissonNLLLoss"))
  let lossName ← getKey hyps ("lossfxn")
  let lossFn ←
    if lossName = HVal.str ("PoissonNLLLoss") then
      if (hyps ("log_poisson")).isSome then do
        let logP ← getKey hyps ("log_poisson")
        pure (LossFn.poissonNLL logP)
      else
        -- PoissonNLLLoss() with PyTorch's default log_input=True.
        pure (LossFn.poissonNLL (.bool true))
    else if lossName = HVal.str ("MSELoss") then
      pure LossFn.mse
    else
      match lossName with
      | .str name =>
        -- globals()[name]() for any other module-level name.
        match globalsFx name with
        | .ok _ => pure (LossFn.otherGlobal name)
        | .error e => Except.error e
      | v =>
        -- A non-string key fails the globals() dict lookup.
        Except.error (.keyError (hvalStr v))
  let lrv ← getKey hyps ("lr")
  let l2v ← getKey hyps ("l2")
  let optimizer : Optim := ⟨lrv, l2v⟩
  let schedName ← getKey hyps ("scheduler")
  if schedName = HVal.str ("ReduceLROnPlateau") then do
    let scale ← getKey hyps ("scheduler_scale")
    let pat ← getKey hyps ("scheduler_patience")
    let thr ← getKey hyps ("scheduler_thresh")
    pure (hyps, optimizer, Sched.reduceLROnPlateau scale pat thr, lossFn)
  else if schedName = HVal.str ("MultiStepLR") then
    pure (hyps, optimizer,
      Sched.multiStepLR (tryKey hyps ("scheduler_milestones") (.ilist [10, 20, 30])),
      lossFn)
  else
    pure (setKey hyps ("scheduler") (.str ("NullScheduler")), optimizer,
      Sched.nullSched, lossFn)

/-! ## `fill_hyper_q` (training.py lines 913-985) -/

/-- The default-filling block at the top of `fill_hyper_q`'s base case
(training.py lines 940-965).  `hyps['n_epochs']` is read through
`tryKey`; in the source a missing `n_epochs` would raise KeyError in the
`prune_intvl is None` branch, a case no claim exercises. -/
def fillDefaults (hyps : Config) : Config :=
  let hyps := setKey hyps ("n_repeats") (tryKey hyps ("n_repeats") (.int 1))
  let hyps := setKey hyps ("prune") (tryKey hyps ("prune") (.bool false))
  let hyps := setKey hyps ("altn_layers") (tryKey hyps ("altn_layers") (.bool false))
  let hyps := setKey hyps ("abssum") (tryKey hyps ("abssum") (.bool false))
  let hyps := setKey hyps ("prune_layers") (tryKey hyps ("prune_layers") (.slist []))
  let hyps := setKey hyps ("prune_intvl") (tryKey hyps ("prune_intvl") .pynone)
  let hyps := setKey hyps ("prune_tolerance")
                (tryKey hyps ("prune_tolerance") (.rat (1 / 100)))
  let hyps := if tryKey hyps ("prune_intvl") .pynone = HVal.pynone then
                setKey hyps ("prune_intvl") (tryKey hyps ("n_epochs") .pynone)
              else hyps
  let hyps := setKey hyps ("alpha_steps") (tryKey hyps ("alpha_steps") (.int 5))
  let hyps := setKey hyps ("intg_bsize") (tryKey hyps ("intg_bsize") (.int 500))
  let hyps := setKey hyps ("scheduler")
                (tryKey hyps ("scheduler") (.str ("ReduceLROnPlateau")))
  let hyps := setKey hyps ("scheduler_thresh")
                (tryKey hyps ("scheduler_thresh") (.rat (1 / 100)))
  let hyps := setKey hyps ("scheduler_patience")
                (tryKey hyps ("scheduler_patience") (.int 10))
  let hyps := setKey hyps ("scheduler_scale")
                (tryKey hyps ("scheduler_scale") (.rat (1 / 2)))
  let hyps := setKey hyps ("cross_val") (tryKey hyps ("cross_val") (.bool false))
  let hyps := setKey hyps ("cross_val_idx") (tryKey hyps ("cross_val_idx") (.int 0))
  setKey hyps ("n_cv_folds") (tryKey hyps ("n_cv_folds") (.int 10))

/-- The `search_keys` string built in `fill_hyper_q`'s repeat loop
(training.py lines 968-974): one `"_" + key + str(value)` piece per swept
key, in the order of `keys`.  For the special key `"startpt"` with a
non-None value, the source replaces `str(value)` by the experiment
name/number read from the loaded checkpoint; that external read is the
oracle `cpName`. -/
def searchKeyStr (cpName : String → String) (keys : List String)
    (hyps : Config) : String :=
  keys.foldl (fun acc k =>
    let v0 := tryKey hyps k .pynone
    let v := if k = "startpt" ∧ v0 ≠ HVal.pynone then cpName (hvalStr v0)
             else hvalStr v0
    acc ++ "_" ++ k ++ v) ("")

/-- The repeat loop in `fill_hyper_q`'s base case (training.py lines
966-975): `n_repeats` times, rebuild `hyps['search_keys']` from the
current dict and enqueue a copy of the dict.  The incremental `+=`
construction of the string is modelled by its final value, which is what
every later read observes. -/
def putRepeats (cpName : String → String) (keys : List String)
    (hyps : Config) (q : List Config) : ℕ → Config × List Config
  | 0 => (hyps, q)
  | n + 1 =>
    let h1 := setKey hyps ("search_keys") (.str (searchKeyStr cpName keys hyps))
    putRepeats cpName keys h1 (q ++ [h1]) n

mutual

/-- `fill_hyper_q` (training.py lines 913-985): recursively assign each
swept key every value of its range; at the bottom fill defaults, then
enqueue `n_repeats` copies of the dict, each carrying the search-key
string.  The dict is threaded through the recursion the way the Python
code mutates it in place.  A non-integer `n_repeats` would raise
TypeError in `range` and is modelled as zero repeats. -/
def fillHyperQ (cpName : String → String) (ranges : String → List HVal)
    (keys : List String) (hyps : Config) (q : List Config) (idx : ℕ) :
    Config × List Config :=
  if h : keys.length ≤ idx then
    let hyps := fillDefaults hyps
    let n := match tryKey hyps ("n_repeats") (.int 1) with
             | .int m => m.toNat
             | _ => 0
    putRepeats cpName keys hyps q n
  else
    let key := keys.get ⟨idx, by omega⟩
    fillParams cpName ranges keys key (ranges key) hyps q idx
termination_by (keys.length + 1 - idx, 0)
decreasing_by
  simp_wf
  exact Prod.Lex.left _ _ (by omega)

/-- The `for param in hyp_ranges[key]` loop inside `fill_hyper_q`
(training.py lines 979-984). -/
def fillParams (cpName : String → String) (ranges : String → List HVal)
    (keys : List String) (key : String) (params : List HVal)
    (hyps : Config) (q : List Config) (idx : ℕ) : Config × List Config :=
  match params with
  | [] => (hyps, q)
  | p :: ps =>
    let r := fillHyperQ cpName ranges keys (setKey hyps key p) q (idx + 1)
    fillParams cpName ranges keys key ps r.1 r.2 idx
termination_by (keys.length - idx, params.length + 1)
decreasing_by
  · simp_wf
    exact Prod.Lex.right _ (by omega)
  · simp_wf
    exact Prod.Lex.right _ (by omega)

end

/-! ## `Trainer.train`, `hyper_search`, `Trainer.retinotopic_loop` -/

/-- `Trainer.train` (training.py lines 54-63): choose the training
variant by the `retinotopic` flag, run it, catch IndexError (logging it
and returning Python `None`); any other exception propagates.  The two
variants are oracles over the run's outcome. -/
def trainerTrain {R : Type} (loopFx retinoFx : Config → Except PyErr R)
    (hyps : Config) : Except PyErr (Option R) :=
  match (if hvalTruthy (tryKey hyps ("retinotopic") (.bool false))
         then retinoFx else loopFx) hyps with
  | .ok r => .ok (some r)
  | .error (.indexError _) => .ok none
  | .error e => .error e

/-- The skip message `"Skipped {} cells {}".format(hyps['dataset'],
hyps['cells'])` printed by `hyper_search` for a run that returned
`None` (training.py lines 705-707). -/
def skipLine (hyps : Config) : String :=
  "Skipped " ++ hvalStr (tryKey hyps ("dataset") .pynone) ++ (" cells ")
    ++ hvalStr (tryKey hyps ("cells") .pynone)

/-- The job-consuming while-loop of `hyper_search` (training.py lines
694-707): one `trainer.train` call per queued config; a non-None result
appends one formatted line (the external formatting is the oracle
`line`) to the results file, a None result writes nothing there and logs
the skip message to stdout.  The state is (results-file lines, stdout
lines); an uncaught exception aborts the whole sweep. -/
def sweepGo {R : Type} (loopFx retinoFx : Config → Except PyErr R)
    (line : R → String) :
    List Config → List String × List String → Except PyErr (List String × List String)
  | [], st => .ok st
  | h :: t, st =>
    match trainerTrain loopFx retinoFx h with
    | .error e => .error e
    | .ok (some r) => sweepGo loopFx retinoFx line t (st.1 ++ [line r], st.2)
    | .ok none => sweepGo loopFx retinoFx line t (st.1, st.2 ++ [skipLine h])

/-- The final-save block of `Trainer.retinotopic_loop` (training.py
lines 620-637): the results record is built, then the hyperparams.txt
block reads the local `zero_dict` whenever `hyps['prune']` is truthy —
but no assignment to `zero_dict` exists anywhere in `retinotopic_loop`,
so that read raises NameError. -/
def retinotopicFinalSave {R : Type} (hyps : Config) (results : R) :
    Except PyErr R :=
  match hyps ("prune") with
  | none => .error (.keyError ("prune"))
  | some v =>
    if hvalTruthy v then .error (.nameError ("zero_dict"))
    else .ok results

/-- `Trainer.retinotopic_loop` with its epoch loop abstracted as an
oracle over the outcome: when the loop completes normally, control
reaches the final-save block. -/
def retinotopicLoopFx {R : Type} (loopOutcome : Config → Except PyErr R)
    (hyps : Config) : Except PyErr R :=
  match loopOutcome hyps with
  | .error e => .error e
  | .ok r => retinotopicFinalSave hyps r

/-! ## Concrete instances used by the counterexamples and witnesses -/

/-- The list of integers from `a` to `b` inclusive (empty when `b < a`),
used to state which epoch indices a loop run produces. -/
def intsFromTo (a b : ℤ) : List ℤ :=
  (List.range (b + 1 - a).toNat).map (fun i : ℕ => a + (i : ℤ))

/-- The Trainer's monitor with early stopping disabled
(`early_stopping = 0`). -/
def esDisabled : EarlyStopState := ⟨0, 1 / 100, none, 0⟩

/-- A concrete no-pruning fold: `n_epochs = 2`, one finite-loss training
batch per epoch, finite validation loss, a no-op (Null) scheduler. -/
def ctxC2 : RunCtx Unit Unit Unit Unit Unit :=
  { nEpochs0 := 2
    hypsPruneFlag := false
    resetSd := false
    resetLr := false
    pruneIntvl := 2
    lr0 := 1 / 100
    minPruneAcc := 0
    nLoops := 1
    ogModel := ()
    ogOptim := ()
    zeroDict0 := ()
    openLayers0 := 0
    restInit := ()
    sched0 := ()
    applyMask := fun m _ => m
    batches := fun _ => [some 1]
    trainFx := fun _ m o => (m, o)
    valLossF := fun _ => some 1
    valAccF := fun _ => 0
    schedStep := fun st _ lr => (st, lr)
    pruneFn := fun _ _ _ pd ol => (pd, ol) }

/-- Like `ctxC2` but with `n_epochs = 3` and a validation loss that is
non-finite at every epoch, while the training loss stays finite. -/
def ctxC5 : RunCtx Unit Unit Unit Unit Unit :=
  { ctxC2 with nEpochs0 := 3, valLossF := fun _ => none }

/-- Like `ctxC2` but the accumulated training loss of every epoch goes
non-finite on batch index 1 (the second batch). -/
def ctxC7 : RunCtx Unit Unit Unit Unit Unit :=
  { ctxC2 with nEpochs0 := 5, batches := fun _ => [some 1, none, some 2] }

/-- A concrete pruning fold with `reset_sd` set: integer model states,
integer zero-dicts, a masking oracle that adds the mask, and a pruning
oracle that empties the open-layer set at its first call. -/
def ctxC4 : RunCtx ℤ Unit Unit ℤ Unit :=
  { nEpochs0 := 3
    hypsPruneFlag := true
    resetSd := true
    resetLr := false
    pruneIntvl := 2
    lr0 := 1 / 10
    minPruneAcc := 0
    nLoops := 1
    ogModel := 7
    ogOptim := ()
    zeroDict0 := 0
    openLayers0 := 5
    restInit := ()
    sched0 := ()
    applyMask := fun m zd => m + zd
    batches := fun _ => [some 1]
    trainFx := fun _ m o => (m + 100, o)
    valLossF := fun _ => some 1
    valAccF := fun _ => 0
    schedStep := fun st _ lr => (st, lr)
    pruneFn := fun _ _ _ pd _ => ({ pd with zeroDict := 3 }, 0) }

/-- The loop state of `ctxC4` just before the epoch at which pruning
fires (`epoch = 1`, so the pruning block runs at epoch 2). -/
def stateC4 : RunState ℤ Unit Unit ℤ Unit :=
  { epoch := 1
    stopTraining := false
    hypsPrune := true
    nEpochs := 2
    model := 50
    optim := ()
    lr := 1 / 10
    sched := ()
    zeroDict := 0
    openLayers := 5
    pruneD := none
    esState := esDisabled
    curLr := some (1 / 10) }

/-- The hyper-ranges `{a: [1,2], b: [3,4]}` of the sweep claim. -/
def rangesAB : String → List HVal := fun k =>
  if k = "a" then [.int 1, .int 2]
  else if k = "b" then [.int 3, .int 4] else []

/-- The hyper-ranges `{a: [1]}` used for the repeat claims. -/
def rangesA : String → List HVal := fun k =>
  if k = "a" then [.int 1] else []

/-- A base configuration for the sweep witnesses: only `n_epochs` set. -/
def hypsBase : Config := fun k =>
  if k = "n_epochs" then some (.int 2) else none

/-- A base configuration with `n_repeats = 2` and an explicit seed. -/
def hypsRep : Config := fun k =>
  if k = "n_repeats" then some (.int 2)
  else if k = "seed" then some (.int 5)
  else if k = "n_epochs" then some (.int 1) else none

/-- A base configuration with `n_repeats = 3`. -/
def hypsRep3 : Config := fun k =>
  if k = "n_repeats" then some (.int 3)
  else if k = "seed" then some (.int 5)
  else if k = "n_epochs" then some (.int 1) else none

/-- A configuration naming a scheduler (`StepLR`, even importable at
module level in training.py) that `get_optim_objs` does not recognize. -/
def cfgSchedBad : Config := fun k =>
  if k = "lossfxn" then some (.str ("MSELoss"))
  else if k = "lr" then some (.rat (1 / 1000))
  else if k = "l2" then some (.rat 0)
  else if k = "scheduler" then some (.str ("StepLR")) else none

/-- A configuration naming an unknown loss function. -/
def cfgLossBad : Config := fun k =>
  if k = "lossfxn" then some (.str ("FancyLoss")) else none

/-- A configuration whose loss name is `Trainer` — a module-level class
of training.py that is zero-arg constructible but is no loss function. -/
def cfgLossTrainer : Config := fun k =>
  if k = "lossfxn" then some (.str ("Trainer"))
  else if k = "lr" then some (.rat (1 / 1000))
  else if k = "l2" then some (.rat 0)
  else if k = "scheduler" then some (.str ("none")) else none

/-- A concrete module-globals oracle: `Trainer` is bound and zero-arg
constructible (training.py lines 34-52, every argument defaulted);
`FancyLoss` and everything else not known from src/ is unbound. -/
def gEnvC6 : String → Except PyErr Unit := fun name =>
  if name = "Trainer" then .ok () else .error (.keyError name)

/-- A job whose training raises IndexError (ordinary, non-retinotopic
variant), with the fields the skip message reads. -/
def jobIdx : Config := fun k =>
  if k = "dataset" then some (.str ("15-10-07"))
  else if k = "cells" then some (.slist ["all"]) else none

/-- A run oracle that raises IndexError. -/
def loopFxIdx : Config → Except PyErr ℤ := fun _ => .error (.indexError ("bad index"))

/-- A run oracle that completes and returns a result record. -/
def loopFxOk : Config → Except PyErr ℤ := fun _ => .ok 0

/-- A pruning-enabled retinotopic configuration. -/
def hypsRetino : Config := fun k =>
  if k = "retinotopic" then some (.bool true)
  else if k = "prune" then some (.bool true) else none

/-! ## Helper lemmas -/

theorem intsFromTo_length (a b : ℤ) :
    (intsFromTo a b).length = (b + 1 - a).toNat := by
  simp [intsFromTo]

theorem intsFromTo_nil {a b : ℤ} (h : b < a) : intsFromTo a b = [] := by
  unfold intsFromTo
  have h0 : (b + 1 - a).toNat = 0 := by omega
  rw [h0]
  rfl

theorem intsFromTo_cons {a b : ℤ} (h : a ≤ b) :
    intsFromTo a b = a :: intsFromTo (a + 1) b := by
  unfold intsFromTo
  have h1 : (b + 1 - a).toNat = (b + 1 - (a + 1)).toNat + 1 := by omega
  rw [h1, List.range_succ_eq_map, List.map_cons, List.map_map]
  refine congrArg₂ List.cons (by simp) ?_
  apply List.map_congr_left
  intro i _
  simp only [Function.comp]
  push_cast
  ring

theorem intsFromTo_single (a : ℤ) : intsFromTo a a = [a] := by
  rw [intsFromTo_cons le_rfl, intsFromTo_nil (by omega)]

theorem stopEarly_disabled (s : EarlyStopState) (a : ℚ)
    (h : s.earlyStopping ≤ 0) : stopEarly s a = (s, false) := by
  unfold stopEarly
  rw [if_pos h]

theorem runLoop_stopped {M O S ZD P : Type} (ctx : RunCtx M O S ZD P)
    (s : RunState M O S ZD P) (fuel : ℕ) (h : s.stopTraining = true) :
    runLoop ctx s fuel = [] := by
  cases fuel with
  | zero => rfl
  | succ f =>
    unfold runLoop
    rw [if_pos h]

/-- The epoch-loop body when pruning is off: the pruning block is
skipped, so the step only advances the epoch counter, re-evaluates the
terminal condition, threads the monitor state, and emits the
checkpoint; the break flag is exactly
`isnan/isinf(avg_loss) or stop`. -/
theorem epochStep_noprune {M O S ZD P : Type} (ctx : RunCtx M O S ZD P)
    (s : RunState M O S ZD P) (hp : s.hypsPrune = false) :
    (epochStep ctx s).1.epoch = s.epoch + 1 ∧
    (epochStep ctx s).1.hypsPrune = false ∧
    (epochStep ctx s).1.nEpochs = s.nEpochs ∧
    (epochStep ctx s).1.stopTraining = decide (s.epoch + 1 ≥ s.nEpochs) ∧
    (epochStep ctx s).1.esState
      = (stopEarly s.esState (ctx.valAccF (s.epoch + 1))).1 ∧
    (epochStep ctx s).2.1.epoch = s.epoch + 1 ∧
    (epochStep ctx s).2.2
      = ((efDivNat (runBatches (ctx.batches (s.epoch + 1))).1 ctx.nLoops).isNone
          || (stopEarly s.esState (ctx.valAccF (s.epoch + 1))).2) := by
  unfold epochStep
  simp [hp]

/-- Running the loop from a no-pruning, not-yet-stopped state with the
monitor disabled and finite average training losses produces exactly the
epochs from the next one through `n_epochs` inclusive. -/
theorem runLoop_noprune {M O S ZD P : Type} (ctx : RunCtx M O S ZD P) :
    ∀ (fuel : ℕ) (s : RunState M O S ZD P),
    s.hypsPrune = false → s.stopTraining = false →
    s.esState.earlyStopping ≤ 0 →
    (∀ e, (efDivNat (runBatches (ctx.batches e)).1 ctx.nLoops).isSome) →
    s.epoch < s.nEpochs →
    (s.nEpochs - s.epoch).toNat < fuel →
    (runLoop ctx s fuel).map (fun c => c.epoch)
      = intsFromTo (s.epoch + 1) s.nEpochs := by
  intro fuel
  induction fuel with
  | zero =>
    intro s _ _ _ _ _ hf
    omega
  | succ fuel ih =>
    intro s hp hst hes hfin hlt hf
    obtain ⟨h1, h2, h3, h4, h5, h6, h7⟩ := epochStep_noprune ctx s hp
    have hstop : (stopEarly s.esState (ctx.valAccF (s.epoch + 1))).2 = false := by
      rw [stopEarly_disabled _ _ hes]
    have hbrk : (epochStep ctx s).2.2 = false := by
      rw [h7, hstop]
      have := hfin (s.epoch + 1)
      simp only [Option.isNone, Bool.or_false]
      cases hc : efDivNat (runBatches (ctx.batches (s.epoch + 1))).1 ctx.nLoops with
      | none => rw [hc] at this; simp at this
      | some v => rfl
    unfold runLoop
    rw [if_neg (by rw [hst]; simp)]
    rw [hbrk]
    simp only [if_false, Bool.false_eq_true]
    rw [List.map_cons, h6]
    by_cases hend : s.epoch + 1 = s.nEpochs
    · have hstop2 : (epochStep ctx s).1.stopTraining = true := by
        rw [h4]
        simp [hend]
      rw [runLoop_stopped ctx _ fuel hstop2]
      rw [hend, intsFromTo_single]
      rfl
    · have hlt2 : (epochStep ctx s).1.epoch < (epochStep ctx s).1.nEpochs := by
        rw [h1, h3]; omega
      have hst2 : (epochStep ctx s).1.stopTraining = false := by
        rw [h4]
        simp only [decide_eq_false_iff_not]
        omega
      have hes2 : (epochStep ctx s).1.esState.earlyStopping ≤ 0 := by
        rw [h5, stopEarly_disabled _ _ hes]
        exact hes
      have hf2 : ((epochStep ctx s).1.nEpochs - (epochStep ctx s).1.epoch).toNat < fuel := by
        rw [h1, h3]
        omega
      rw [ih (epochStep ctx s).1 h2 hst2 hes2 hfin hlt2 hf2]
      rw [h1, h3]
      rw [← intsFromTo_cons (by omega)]

theorem isNone_false_of_isSome {α : Type} {x : Option α} (h : x.isSome = true) :
    x.isNone = false := by
  cases x with
  | none => simp at h
  | some v => rfl

theorem isNone_true_of_not_isSome {α : Type} {x : Option α}
    (h : ¬ x.isSome = true) : x.isNone = true := by
  cases x with
  | none => rfl
  | some v => simp at h

/-- One unfolding of the epoch loop from a not-yet-stopped state. -/
theorem runLoop_succ {M O S ZD P : Type} (ctx : RunCtx M O S ZD P)
    (s : RunState M O S ZD P) (fuel : ℕ) (h : s.stopTraining = false) :
    runLoop ctx s (fuel + 1)
      = (epochStep ctx s).2.1 ::
          (if (epochStep ctx s).2.2 then []
           else runLoop ctx (epochStep ctx s).1 fuel) := by
  rw [runLoop]
  rw [if_neg (by simp [h])]

/-- If the accumulated loss first turns non-finite after adding the
element at index `k`, the batch loop returns that accumulated value and
has processed exactly `k + 1` batches. -/
theorem runBatchesGo_nan :
    ∀ (l : List EF) (acc : EF) (k : ℕ),
    (∀ j, j ≤ k → ((l.take j).foldl efAdd acc).isSome) →
    ((l.take (k + 1)).foldl efAdd acc).isNone →
    k < l.length →
    runBatchesGo acc l = ((l.take (k + 1)).foldl efAdd acc, k + 1) := by
  intro l
  induction l with
  | nil =>
    intro acc k _ _ hlen
    simp at hlen
  | cons x xs ih =>
    intro acc k hpre hk hlen
    cases k with
    | zero =>
      have hx : (efAdd acc x).isNone := by simpa using hk
      unfold runBatchesGo
      rw [if_pos hx]
      simp
    | succ k' =>
      have hx : (efAdd acc x).isSome := by
        have h1 := hpre 1 (by omega)
        simpa using h1
      obtain ⟨v, hv⟩ := Option.isSome_iff_exists.mp hx
      have hpre' : ∀ j, j ≤ k' → ((xs.take j).foldl efAdd (some v)).isSome := by
        intro j hj
        have h2 := hpre (j + 1) (by omega)
        rw [List.take_succ_cons, List.foldl_cons, hv] at h2
        exact h2
      have hk' : ((xs.take (k' + 1)).foldl efAdd (some v)).isNone := by
        rw [List.take_succ_cons, List.foldl_cons, hv] at hk
        exact hk
      unfold runBatchesGo
      rw [hv]
      simp only [Option.isNone_some, Bool.false_eq_true, if_false]
      rw [ih (some v) k' hpre' hk' (by simpa using hlen)]
      rw [List.take_succ_cons, List.foldl_cons, hv]

/-- Processing a job list splits at an append: the whole sweep is the
first part followed, on success, by the second from the reached state. -/
theorem sweepGo_append {R : Type} (loopFx retinoFx : Config → Except PyErr R)
    (line : R → String) :
    ∀ (l1 l2 : List Config) (st : List String × List String),
    sweepGo loopFx retinoFx line (l1 ++ l2) st
      = match sweepGo loopFx retinoFx line l1 st with
        | .ok st1 => sweepGo loopFx retinoFx line l2 st1
        | .error e => .error e := by
  intro l1
  induction l1 with
  | nil =>
    intro l2 st
    rfl
  | cons h t ih =>
    intro l2 st
    simp only [List.cons_append, sweepGo]
    cases htr : trainerTrain loopFx retinoFx h with
    | error e => rfl
    | ok r =>
      cases r with
      | none =>
        simp only [List.append_eq]
        rw [ih]
      | some v =>
        simp only [List.append_eq]
        rw [ih]

/-- From a state whose counter is 0, a `stop_early` call with patience
at least 2 returns false and leaves the counter at 0 again (the source
falls through to the reset lines whenever the incremented counter has
not reached the patience). -/
theorem stopEarly_reset (s : EarlyStopState) (a : ℚ)
    (hP : 2 ≤ s.earlyStopping) (hc : s.stopCount = 0) :
    (stopEarly s a).2 = false ∧ (stopEarly s a).1.stopCount = 0 ∧
      (stopEarly s a).1.earlyStopping = s.earlyStopping := by
  unfold stopEarly
  rw [if_neg (by omega)]
  cases hpa : s.prevAcc with
  | none => simp
  | some prev =>
    dsimp only
    by_cases hlt : a - prev < s.tolerance
    · rw [if_pos hlt, if_neg (by omega)]
      simp
    · rw [if_neg hlt]
      simp

/-- The epoch-loop body at an epoch where the pruning block fires,
`reset_sd` is set, and the pruning call leaves the open-layer set empty:
model and optimizer are rolled back to the snapshots with the final mask
applied, the learning rate returns to `hyps['lr']`, and the loop is
retargeted at a fresh `n_epochs` budget with pruning off. -/
theorem epochStep_prune_complete {M O S ZD P : Type} (ctx : RunCtx M O S ZD P)
    (s : RunState M O S ZD P)
    (hrs : ctx.resetSd = true) (hp : s.hypsPrune = true)
    (hpe : s.nEpochs - 1 ≤ s.epoch + 1)
    (hint : (s.epoch + 1 - s.nEpochs).emod ctx.pruneIntvl = 0)
    (hopen : ∀ m a lr pd ol, (ctx.pruneFn m a lr pd ol).2 = 0) :
    (epochStep ctx s).1.epoch = s.epoch + 1 ∧
    (epochStep ctx s).1.model
        = ctx.applyMask ctx.ogModel (epochStep ctx s).1.zeroDict ∧
    (epochStep ctx s).1.optim = ctx.ogOptim ∧
    (epochStep ctx s).1.lr = ctx.lr0 ∧
    (epochStep ctx s).1.hypsPrune = false ∧
    (epochStep ctx s).1.stopTraining = false ∧
    (epochStep ctx s).1.nEpochs = ctx.nEpochs0 + (s.epoch + 1) ∧
    (epochStep ctx s).1.esState
        = (stopEarly s.esState (ctx.valAccF (s.epoch + 1))).1 ∧
    (epochStep ctx s).2.1.epoch = s.epoch + 1 ∧
    (epochStep ctx s).2.2
        = ((efDivNat (runBatches (ctx.batches (s.epoch + 1))).1 ctx.nLoops).isNone
            || (stopEarly s.esState (ctx.valAccF (s.epoch + 1))).2) := by
  unfold epochStep
  simp only [hp, hrs, decide_eq_true hpe, decide_eq_true hint, hopen,
    Bool.true_and, Bool.and_true, Bool.and_self, if_true, ite_self,
    decide_True, and_self, decide_eq_true_eq]

/-- The repeat loop over the single swept key `"a"` held at value 1:
it appends exactly `m` entries to the queue, and every appended entry
carries search key `"_a1"`, the base dict's `seed` (unchanged) and its
`n_repeats`. -/
theorem putRepeats_spec (cpName : String → String) (s0 : Option HVal) (n : ℤ) :
    ∀ (m : ℕ) (hyps : Config) (q : List Config),
    tryKey hyps ("a") .pynone = .int 1 →
    hyps ("seed") = s0 →
    hyps ("n_repeats") = some (.int n) →
    (putRepeats cpName ["a"] hyps q m).2.length = q.length + m ∧
    (∀ c ∈ (putRepeats cpName ["a"] hyps q m).2,
      c ∈ q ∨ (tryKey c ("search_keys") .pynone = .str ("_a1") ∧
               c ("seed") = s0 ∧ c ("n_repeats") = some (.int n))) := by
  intro m
  induction m with
  | zero =>
    intro hyps q h1 h2 h3
    exact ⟨rfl, fun c hc => .inl hc⟩
  | succ m ih =>
    intro hyps q h1 h2 h3
    have hsk : searchKeyStr cpName ["a"] hyps = "_a1" := by
      simp only [searchKeyStr, List.foldl_cons, List.foldl_nil]
      rw [if_neg (by simp)]
      rw [h1]
      rfl
    have hset1 : tryKey (setKey hyps ("search_keys")
        (.str (searchKeyStr cpName ["a"] hyps))) ("a") .pynone = .int 1 := by
      rw [← h1]
      simp [setKey, tryKey]
    have hset2 : (setKey hyps ("search_keys")
        (.str (searchKeyStr cpName ["a"] hyps))) ("seed") = s0 := by
      rw [← h2]
      simp [setKey]
    have hset3 : (setKey hyps ("search_keys")
        (.str (searchKeyStr cpName ["a"] hyps))) ("n_repeats") = some (.int n) := by
      rw [← h3]
      simp [setKey]
    obtain ⟨ihl, ihm⟩ := ih (setKey hyps ("search_keys")
        (.str (searchKeyStr cpName ["a"] hyps)))
      (q ++ [setKey hyps ("search_keys") (.str (searchKeyStr cpName ["a"] hyps))])
      hset1 hset2 hset3
    constructor
    · show (putRepeats cpName ["a"] _ _ m).2.length = q.length + (m + 1)
      rw [ihl]
      simp
      omega
    · intro c hc
      rcases ihm c hc with hq | hg
      · rcases List.mem_append.mp hq with hq' | hnew
        · exact .inl hq'
        · refine .inr ?_
          have hceq : c = setKey hyps ("search_keys")
              (.str (searchKeyStr cpName ["a"] hyps)) := by
            simpa using hnew
          subst hceq
          refine ⟨?_, hset2, hset3⟩
          rw [hsk]
          simp [setKey, tryKey]
      · exact .inr hg

/-! ## The claims -/

/-- C1: the spec says `observe` returns true exactly on the (P+1)-th
consecutive call whose metric fails to improve on the stored previous
value by at least τ, incrementing its counter and keeping the stored
previous value on earlier non-improving calls, and resetting counter and
stored value only on improving calls.  The code does not do this: when
the incremented counter has not reached the patience it falls through to
the reset lines, zeroing the counter and overwriting `prev_acc` even on
a non-improving call.  Hence — as this theorem shows — for every
patience P ≥ 2, from any state with the counter at 0 (in particular
right after the first observation) every sequence of observations
returns false at every single call: the monitor can never fire, contrary
to the claim and to the constructor's own docstring for
`early_stopping`/`stop_tolerance`. -/
theorem claim1_monitor_never_fires (s : EarlyStopState) (accs : List ℚ)
    (hP : 2 ≤ s.earlyStopping) (hc : s.stopCount = 0) :
    runObserve s accs = List.replicate accs.length false := by
  induction accs generalizing s with
  | nil => rfl
  | cons a rest ih =>
    obtain ⟨k1, k2, k3⟩ := stopEarly_reset s a hP hc
    simp only [runObserve, List.length_cons, List.replicate_succ]
    rw [k1, ih (stopEarly s a).1 (by omega) k2]

/-- Witness for C1: patience 2, tolerance 1/100, metrics 1,1,1,1 — four
consecutive non-improving calls after the first stores the metric, and
every call returns false. -/
theorem claim1_monitor_never_fires_witness :
    runObserve ⟨2, 1 / 100, none, 0⟩ [1, 1, 1, 1]
      = List.replicate ([1, 1, 1, 1] : List ℚ).length false :=
  claim1_monitor_never_fires ⟨2, 1 / 100, none, 0⟩ [1, 1, 1, 1] (by decide) rfl

/-- C2 counterexample: in the claim's own scenario — `n_epochs = 2`,
pruning off, a no-op scheduler, early stopping disabled, finite losses —
the epoch loop executes epochs 0, 1 AND 2 (the body still runs for the
epoch at which `stop_training` is set, since the flag is only checked at
the top of the next iteration), producing three epoch results and three
checkpoints whose last `epoch` field is 2; the claim's "exactly 2
epochs, 2 checkpoints, last checkpoint epoch = 1" is false. -/
theorem claim2_counterexample :
    (runLoop ctxC2 (initState ctxC2 esDisabled) 10).map (fun c => c.epoch)
        = [0, 1, 2] ∧
    (runLoop ctxC2 (initState ctxC2 esDisabled) 10).length ≠ 2 ∧
    ((runLoop ctxC2 (initState ctxC2 esDisabled) 10).getLast?.map
        (fun c => c.epoch)) ≠ some 1 := by
  decide

/-- C2 (amended): with pruning disabled, a monitor that never signals
and finite average training losses, the per-fold loop executes exactly
the epochs 0, 1, …, n_epochs — that is n_epochs + 1 epoch results and
checkpoints, the last checkpoint's `epoch` field being n_epochs (3
checkpoints ending at epoch 2 in the claim's n_epochs = 2 scenario). -/
theorem claim2_amended {M O S ZD P : Type} (ctx : RunCtx M O S ZD P)
    (es0 : EarlyStopState) (fuel : ℕ)
    (hp : ctx.hypsPruneFlag = false)
    (hes : es0.earlyStopping ≤ 0)
    (hfin : ∀ e, (efDivNat (runBatches (ctx.batches e)).1 ctx.nLoops).isSome)
    (hN : 0 ≤ ctx.nEpochs0)
    (hf : ctx.nEpochs0.toNat + 1 < fuel) :
    (runLoop ctx (initState ctx es0) fuel).map (fun c => c.epoch)
        = intsFromTo 0 ctx.nEpochs0 ∧
    (runLoop ctx (initState ctx es0) fuel).length = ctx.nEpochs0.toNat + 1 := by
  have hinit1 : (initState ctx es0).hypsPrune = false := hp
  have hinit2 : (initState ctx es0).nEpochs = ctx.nEpochs0 := by
    simp [initState, hp]
  have hinit3 : (initState ctx es0).epoch = -1 := rfl
  have hinit4 : (initState ctx es0).esState = es0 := rfl
  have h := runLoop_noprune ctx fuel (initState ctx es0) hinit1 rfl
    (by rw [hinit4]; exact hes) hfin
    (by rw [hinit3, hinit2]; omega)
    (by rw [hinit3, hinit2]; omega)
  rw [hinit3, hinit2] at h
  norm_num at h
  refine ⟨h, ?_⟩
  have hlen : (runLoop ctx (initState ctx es0) fuel).length
      = ((runLoop ctx (initState ctx es0) fuel).map (fun c => c.epoch)).length := by
    rw [List.length_map]
  rw [hlen, h, intsFromTo_length]
  omega

/-- Witness for C2 (amended), instantiated at the claim's scenario. -/
theorem claim2_amended_witness :
    (runLoop ctxC2 (initState ctxC2 esDisabled) 10).map (fun c => c.epoch)
        = intsFromTo 0 ctxC2.nEpochs0 ∧
    (runLoop ctxC2 (initState ctxC2 esDisabled) 10).length
        = ctxC2.nEpochs0.toNat + 1 :=
  claim2_amended ctxC2 esDisabled 10 rfl (by decide) (fun _ => rfl)
    (by decide) (by decide)

/-- C5 counterexample: a run whose validation loss is non-finite at
every epoch while the training loss stays finite and the monitor never
signals.  The claim says the fold's loop stops (breaks) right after
epoch 0; in fact the end-of-epoch break (training.py line 390) never
consults the validation loss, and the loop runs all four epochs of the
n_epochs = 3 schedule. -/
theorem claim5_counterexample :
    (ctxC5.valLossF 0).isSome = false ∧
    (runLoop ctxC5 (initState ctxC5 esDisabled) 10).map (fun c => c.epoch)
        = [0, 1, 2, 3] ∧
    (runLoop ctxC5 (initState ctxC5 esDisabled) 10).length ≠ 1 := by
  decide

/-- C5 (amended): at the end of an epoch (pruning off, loop not already
flagged to stop) the loop proceeds to a further epoch exactly when the
epoch's average training loss is finite AND the early-stopping monitor
did not signal stop AND the terminal condition `epoch ≥ n_epochs` has
not been reached; the validation loss is not consulted. -/
theorem claim5_amended {M O S ZD P : Type} (ctx : RunCtx M O S ZD P)
    (s : RunState M O S ZD P) (fuel : ℕ)
    (hp : s.hypsPrune = false) (hst : s.stopTraining = false) :
    2 ≤ (runLoop ctx s (fuel + 2)).length ↔
      ((efDivNat (runBatches (ctx.batches (s.epoch + 1))).1 ctx.nLoops).isSome
        = true ∧
       (stopEarly s.esState (ctx.valAccF (s.epoch + 1))).2 = false ∧
       s.epoch + 1 < s.nEpochs) := by
  obtain ⟨h1, h2, h3, h4, h5, h6, h7⟩ := epochStep_noprune ctx s hp
  rw [runLoop_succ ctx s (fuel + 1) hst]
  by_cases hfin : (efDivNat (runBatches (ctx.batches (s.epoch + 1))).1 ctx.nLoops).isSome = true
  · by_cases hstp : (stopEarly s.esState (ctx.valAccF (s.epoch + 1))).2 = false
    · have hbrk : (epochStep ctx s).2.2 = false := by
        rw [h7, hstp, isNone_false_of_isSome hfin]
        rfl
      rw [hbrk]
      simp only [Bool.false_eq_true, if_false]
      by_cases hend : s.epoch + 1 < s.nEpochs
      · have hst2 : (epochStep ctx s).1.stopTraining = false := by
          rw [h4]
          simp only [decide_eq_false_iff_not]
          omega
        rw [runLoop_succ ctx (epochStep ctx s).1 fuel hst2]
        simp [hfin, hstp, hend]
      · have hst2 : (epochStep ctx s).1.stopTraining = true := by
          rw [h4]
          simp only [decide_eq_true_eq]
          omega
        rw [runLoop_stopped ctx (epochStep ctx s).1 (fuel + 1) hst2]
        simp [hfin, hstp, hend]
    · have hbrk : (epochStep ctx s).2.2 = true := by
        rw [h7]
        simp only [Bool.or_eq_true]
        right
        simpa using hstp
      rw [hbrk]
      simp [hstp]
  · have hbrk : (epochStep ctx s).2.2 = true := by
      rw [h7, isNone_true_of_not_isSome hfin]
      rfl
    rw [hbrk]
    simp [hfin]

/-- Witness for C5 (amended): the characterization instantiated at the
concrete non-finite-validation run of the counterexample's shape at its
initial state. -/
theorem claim5_amended_witness :
    2 ≤ (runLoop ctxC5 (initState ctxC5 esDisabled) (8 + 2)).length ↔
      ((efDivNat (runBatches (ctxC5.batches ((initState ctxC5 esDisabled).epoch + 1))).1
          ctxC5.nLoops).isSome = true ∧
       (stopEarly (initState ctxC5 esDisabled).esState
          (ctxC5.valAccF ((initState ctxC5 esDisabled).epoch + 1))).2 = false ∧
       (initState ctxC5 esDisabled).epoch + 1 < (initState ctxC5 esDisabled).nEpochs) :=
  claim5_amended ctxC5 (initState ctxC5 esDisabled) 8 rfl rfl

/-- C7: if the accumulated training loss first becomes non-finite on
batch k of an epoch, that epoch's training loop stops having processed
exactly batches 0..k (batch k+1 is not processed), and the epoch still
runs validation (its validation loss and accuracy are recorded in the
end-of-epoch checkpoint), the checkpoint for that epoch is emitted, and
the fold's loop then terminates with that checkpoint as its last. -/
theorem claim7_nan_batch {M O S ZD P : Type} (ctx : RunCtx M O S ZD P)
    (s : RunState M O S ZD P) (fuel k : ℕ)
    (hst : s.stopTraining = false)
    (hpre : ∀ j, j ≤ k →
      (((ctx.batches (s.epoch + 1)).take j).foldl efAdd (some 0)).isSome)
    (hk : (((ctx.batches (s.epoch + 1)).take (k + 1)).foldl efAdd (some 0)).isNone)
    (hlen : k < (ctx.batches (s.epoch + 1)).length) :
    (runBatches (ctx.batches (s.epoch + 1))).2 = k + 1 ∧
    (epochStep ctx s).2.1.epoch = s.epoch + 1 ∧
    (epochStep ctx s).2.1.valLoss = ctx.valLossF (s.epoch + 1) ∧
    (epochStep ctx s).2.1.valAcc = ctx.valAccF (s.epoch + 1) ∧
    (epochStep ctx s).2.2 = true ∧
    runLoop ctx s (fuel + 1) = [(epochStep ctx s).2.1] := by
  have hrb : runBatches (ctx.batches (s.epoch + 1))
      = (((ctx.batches (s.epoch + 1)).take (k + 1)).foldl efAdd (some 0), k + 1) :=
    runBatchesGo_nan (ctx.batches (s.epoch + 1)) (some 0) k hpre hk hlen
  have havg : (efDivNat (runBatches (ctx.batches (s.epoch + 1))).1 ctx.nLoops).isNone
      = true := by
    rw [hrb]
    rw [Option.isNone_iff_eq_none] at hk
    rw [hk]
    rfl
  have hbrk : (epochStep ctx s).2.2 = true := by
    show ((efDivNat (runBatches (ctx.batches (s.epoch + 1))).1 ctx.nLoops).isNone
        || (stopEarly s.esState (ctx.valAccF (s.epoch + 1))).2) = true
    rw [havg]
    rfl
  refine ⟨by rw [hrb], rfl, rfl, rfl, hbrk, ?_⟩
  rw [runLoop_succ ctx s fuel hst, hbrk]
  rfl

/-- C4: when pruning runs with `reset_sd` set and the pruning call
empties the open-layer set at the end of epoch e, the state after that
epoch has the model equal to the pre-training snapshot with the final
ZeroMask applied, the optimizer equal to its pre-training snapshot with
the learning rate back at `hyps['lr']`, pruning turned off and the stop
flag cleared, and the budget retargeted to `hyps['n_epochs'] + e`; with
finite losses and the monitor quiet, the loop then executes exactly
`n_epochs` further ordinary epochs (e+1 … e+n_epochs), not zero. -/
theorem claim4_reset_sd_rollback {M O S ZD P : Type} (ctx : RunCtx M O S ZD P)
    (s : RunState M O S ZD P) (fuel : ℕ)
    (hrs : ctx.resetSd = true)
    (hp : s.hypsPrune = true)
    (hst : s.stopTraining = false)
    (hpe : s.nEpochs - 1 ≤ s.epoch + 1)
    (hint : (s.epoch + 1 - s.nEpochs).emod ctx.pruneIntvl = 0)
    (hopen : ∀ m a lr pd ol, (ctx.pruneFn m a lr pd ol).2 = 0)
    (hes : s.esState.earlyStopping ≤ 0)
    (hfin : ∀ e, (efDivNat (runBatches (ctx.batches e)).1 ctx.nLoops).isSome)
    (hN : 0 < ctx.nEpochs0)
    (hf : ctx.nEpochs0.toNat + 1 < fuel) :
    (epochStep ctx s).1.model
        = ctx.applyMask ctx.ogModel (epochStep ctx s).1.zeroDict ∧
    (epochStep ctx s).1.optim = ctx.ogOptim ∧
    (epochStep ctx s).1.lr = ctx.lr0 ∧
    (epochStep ctx s).1.hypsPrune = false ∧
    (epochStep ctx s).1.nEpochs = ctx.nEpochs0 + (s.epoch + 1) ∧
    (runLoop ctx s fuel).map (fun c => c.epoch)
        = intsFromTo (s.epoch + 1) (ctx.nEpochs0 + (s.epoch + 1)) ∧
    (runLoop ctx s fuel).length = ctx.nEpochs0.toNat + 1 := by
  obtain ⟨k0, k1, k2, k3, k4, k5, k6, k7, k8, k9⟩ :=
    epochStep_prune_complete ctx s hrs hp hpe hint hopen
  have hstop : (stopEarly s.esState (ctx.valAccF (s.epoch + 1))).2 = false := by
    rw [stopEarly_disabled _ _ hes]
  have hbrk : (epochStep ctx s).2.2 = false := by
    rw [k9, hstop, isNone_false_of_isSome (hfin (s.epoch + 1))]
    rfl
  obtain ⟨f, rfl⟩ : ∃ f, fuel = f + 1 := ⟨fuel - 1, by omega⟩
  have hmap : (runLoop ctx s (f + 1)).map (fun c => c.epoch)
      = intsFromTo (s.epoch + 1) (ctx.nEpochs0 + (s.epoch + 1)) := by
    rw [runLoop_succ ctx s f hst, hbrk]
    simp only [Bool.false_eq_true, if_false, List.map_cons, k8]
    have htail := runLoop_noprune ctx f (epochStep ctx s).1 k4 k5
      (by rw [k7, stopEarly_disabled _ _ hes]; exact hes) hfin
      (by rw [k0, k6]; omega)
      (by rw [k0, k6]; omega)
    rw [htail, k0, k6]
    rw [← intsFromTo_cons (by omega)]
  refine ⟨k1, k2, k3, k4, k6, hmap, ?_⟩
  have hlen : (runLoop ctx s (f + 1)).length
      = ((runLoop ctx s (f + 1)).map (fun c => c.epoch)).length := by
    rw [List.length_map]
  rw [hlen, hmap, intsFromTo_length]
  omega

/-- Witness for C4: the concrete pruning fold `ctxC4` at the state just
before the epoch at which the pruning call empties the open-layer set. -/
theorem claim4_reset_sd_rollback_witness :
    (epochStep ctxC4 stateC4).1.model
        = ctxC4.applyMask ctxC4.ogModel (epochStep ctxC4 stateC4).1.zeroDict ∧
    (epochStep ctxC4 stateC4).1.optim = ctxC4.ogOptim ∧
    (epochStep ctxC4 stateC4).1.lr = ctxC4.lr0 ∧
    (epochStep ctxC4 stateC4).1.hypsPrune = false ∧
    (epochStep ctxC4 stateC4).1.nEpochs = ctxC4.nEpochs0 + (stateC4.epoch + 1) ∧
    (runLoop ctxC4 stateC4 10).map (fun c => c.epoch)
        = intsFromTo (stateC4.epoch + 1) (ctxC4.nEpochs0 + (stateC4.epoch + 1)) ∧
    (runLoop ctxC4 stateC4 10).length = ctxC4.nEpochs0.toNat + 1 :=
  claim4_reset_sd_rollback ctxC4 stateC4 10 rfl rfl rfl (by decide) (by decide)
    (fun _ _ _ _ _ => rfl) (by decide) (fun _ => rfl) (by decide) (by decide)

set_option maxHeartbeats 3200000 in
/-- C3: for any base configuration (one whose `n_repeats` is unset or 1)
and the ranges `{a: [1,2], b: [3,4]}` swept in the key order [a, b],
`fill_hyper_q` enqueues exactly 4 configurations — one per element of
the cartesian product, in the deterministic nested-iteration order
(1,3), (1,4), (2,3), (2,4) — each carrying the search-key string built
by concatenating "_key" ++ str(value) for every swept key in that fixed
key order; the four search keys are pairwise distinct. -/
theorem claim3_cartesian_queue (cpName : String → String) (hyps0 : Config)
    (hrep : hyps0 ("n_repeats") = none ∨ hyps0 ("n_repeats") = some (.int 1)) :
    ((fillHyperQ cpName rangesAB ["a", "b"] hyps0 [] 0).2.length = 4) ∧
    ((fillHyperQ cpName rangesAB ["a", "b"] hyps0 [] 0).2.map
        (fun c => (tryKey c ("a") .pynone, tryKey c ("b") .pynone))
      = [(.int 1, .int 3), (.int 1, .int 4), (.int 2, .int 3), (.int 2, .int 4)]) ∧
    ((fillHyperQ cpName rangesAB ["a", "b"] hyps0 [] 0).2.map
        (fun c => tryKey c ("search_keys") .pynone)
      = [.str ("_a1_b3"), .str ("_a1_b4"), .str ("_a2_b3"), .str ("_a2_b4")]) ∧
    ((fillHyperQ cpName rangesAB ["a", "b"] hyps0 [] 0).2.map
        (fun c => tryKey c ("search_keys") .pynone)).Nodup := by
  have e1 : hvalStr (.int 1) = "1" := rfl
  have e2 : hvalStr (.int 2) = "2" := rfl
  have e3 : hvalStr (.int 3) = "3" := rfl
  have e4 : hvalStr (.int 4) = "4" := rfl
  rcases hrep with h | h <;>
    simp [fillHyperQ, fillParams, fillDefaults, putRepeats, searchKeyStr,
      setKey, tryKey, rangesAB, List.get, e1, e2, e3, e4, h,
      apply_ite (fun g : Config => g ("a")),
      apply_ite (fun g : Config => g ("b")),
      apply_ite (fun g : Config => g ("search_keys")),
      apply_ite (fun g : Config => g ("n_repeats")),
      ite_self]

/-- Witness for C3: the base configuration with only `n_epochs` set. -/
theorem claim3_cartesian_queue_witness :
    ((fillHyperQ (fun _ => "") rangesAB ["a", "b"] hypsBase [] 0).2.length = 4) ∧
    ((fillHyperQ (fun _ => "") rangesAB ["a", "b"] hypsBase [] 0).2.map
        (fun c => (tryKey c ("a") .pynone, tryKey c ("b") .pynone))
      = [(.int 1, .int 3), (.int 1, .int 4), (.int 2, .int 3), (.int 2, .int 4)]) ∧
    ((fillHyperQ (fun _ => "") rangesAB ["a", "b"] hypsBase [] 0).2.map
        (fun c => tryKey c ("search_keys") .pynone)
      = [.str ("_a1_b3"), .str ("_a1_b4"), .str ("_a2_b3"), .str ("_a2_b4")]) ∧
    ((fillHyperQ (fun _ => "") rangesAB ["a", "b"] hypsBase [] 0).2.map
        (fun c => tryKey c ("search_keys") .pynone)).Nodup :=
  claim3_cartesian_queue (fun _ => "") hypsBase (.inl rfl)

/-- C9 counterexample: with `n_repeats = 2`, an explicit `seed = 5` in
the base configuration and the single sweep point `a = 1`, `fill_hyper_q`
enqueues two entries that are identical in content: both carry seed 5 and
the same search key `"_a1"`.  The repeat loop neither varies the seed nor
any other field, so the claim's "each repeat differs at minimum in its
seed" is false. -/
theorem claim9_counterexample :
    ((fillHyperQ (fun _ => "") rangesA ["a"] hypsRep [] 0).2.length = 2) ∧
    ((fillHyperQ (fun _ => "") rangesA ["a"] hypsRep [] 0).2.map
        (fun c => c ("seed")) = [some (.int 5), some (.int 5)]) ∧
    ((fillHyperQ (fun _ => "") rangesA ["a"] hypsRep [] 0).2.map
        (fun c => tryKey c ("search_keys") .pynone)
      = [.str ("_a1"), .str ("_a1")]) := by
  have e1 : hvalStr (.int 1) = "1" := rfl
  refine ⟨?_, ?_, ?_⟩ <;>
    simp [fillHyperQ, fillParams, fillDefaults, putRepeats, searchKeyStr,
      setKey, tryKey, rangesA, hypsRep, List.get, e1]

/-- C9 (amended): with `n_repeats = n` the sweep engine enqueues the
sweep point exactly n times; every enqueued repeat carries the same
search-key string and the base configuration's `seed` field unchanged —
the entries are identical in content, and seeds only diverge later, at
run start, when an unset seed is resolved from the clock
(training.py lines 95-97), not in the queue. -/
theorem claim9_amended (cpName : String → String) (hyps0 : Config) (n : ℤ)
    (hrep : hyps0 ("n_repeats") = some (.int n)) :
    ((fillHyperQ cpName rangesA ["a"] hyps0 [] 0).2.length = n.toNat) ∧
    (∀ c ∈ (fillHyperQ cpName rangesA ["a"] hyps0 [] 0).2,
      tryKey c ("search_keys") .pynone = .str ("_a1") ∧
      c ("seed") = hyps0 ("seed") ∧
      c ("n_repeats") = some (.int n)) := by
  have hred : fillHyperQ cpName rangesA ["a"] hyps0 [] 0
      = putRepeats cpName ["a"] (fillDefaults (setKey hyps0 ("a") (.int 1)))
          [] n.toNat := by
    rw [fillHyperQ]
    rw [dif_neg (by simp)]
    simp only [List.get, rangesA, if_pos]
    have hnr : tryKey (fillDefaults (setKey hyps0 ("a") (.int 1)))
        ("n_repeats") (.int 1) = .int n := by
      simp [fillDefaults, setKey, tryKey, hrep,
        apply_ite (fun g : Config => g ("n_repeats")), ite_self]
    rw [fillParams, fillParams, fillHyperQ]
    rw [dif_pos (by simp)]
    dsimp only
    rw [hnr]
  have ha : tryKey (fillDefaults (setKey hyps0 ("a") (.int 1))) ("a") .pynone
      = .int 1 := by
    simp [fillDefaults, setKey, tryKey,
      apply_ite (fun g : Config => g ("a")), ite_self]
  have hseed : (fillDefaults (setKey hyps0 ("a") (.int 1))) ("seed")
      = hyps0 ("seed") := by
    simp [fillDefaults, setKey,
      apply_ite (fun g : Config => g ("seed")), ite_self]
  have hnr2 : (fillDefaults (setKey hyps0 ("a") (.int 1))) ("n_repeats")
      = some (.int n) := by
    simp [fillDefaults, setKey, tryKey, hrep,
      apply_ite (fun g : Config => g ("n_repeats")), ite_self]
  obtain ⟨hl, hm⟩ := putRepeats_spec cpName (hyps0 ("seed")) n n.toNat
    (fillDefaults (setKey hyps0 ("a") (.int 1))) [] ha hseed hnr2
  rw [hred]
  refine ⟨by rw [hl]; simp, ?_⟩
  intro c hc
  rcases hm c hc with h | h
  · simp at h
  · exact h

/-- Witness for C9 (amended): the `n_repeats = 3` base configuration. -/
theorem claim9_amended_witness :
    ((fillHyperQ (fun _ => "") rangesA ["a"] hypsRep3 [] 0).2.length
        = (3 : ℤ).toNat) ∧
    (∀ c ∈ (fillHyperQ (fun _ => "") rangesA ["a"] hypsRep3 [] 0).2,
      tryKey c ("search_keys") .pynone = .str ("_a1") ∧
      c ("seed") = hypsRep3 ("seed") ∧
      c ("n_repeats") = some (.int 3)) :=
  claim9_amended (fun _ => "") hypsRep3 3 rfl

/-- C6 counterexample: neither half of the claim holds.  A configuration
naming the scheduler "StepLR" — outside the recognized pair, though a
real scheduler class imported by training.py — does not make
`get_optim_objs` fail: the call succeeds, silently substitutes the no-op
NullScheduler, and overwrites `hyps['scheduler']`.  And a configuration
naming the loss "Trainer" — a zero-arg-constructible module-level class
that is no loss function — does not fail either: the `globals()` lookup
resolves it and the run silently proceeds with the non-loss object as
its loss function. -/
theorem claim6_counterexample :
    (getOptimObjs gEnvC6 cfgSchedBad).isOk = true ∧
    (getOptimObjs gEnvC6 cfgSchedBad).toOption.map (fun r => r.2.2.1)
        = some Sched.nullSched ∧
    (getOptimObjs gEnvC6 cfgSchedBad).toOption.map (fun r => r.1 ("scheduler"))
        = some (some (.str ("NullScheduler"))) ∧
    (getOptimObjs gEnvC6 cfgLossTrainer).isOk = true ∧
    (getOptimObjs gEnvC6 cfgLossTrainer).toOption.map (fun r => r.2.2.2)
        = some (LossFn.otherGlobal ("Trainer")) := by
  refine ⟨rfl, rfl, rfl, rfl, rfl⟩

/-- C6 (amended): building the optimization objects fails — with the
KeyError of the `globals()` name lookup, the spec's ConfigurationError —
only when the configured loss-function name has no module-level binding
at all; a module-level name that is not a loss class (such as `Trainer`)
is silently zero-arg constructed and substituted for the loss, and an
unrecognized scheduler name never fails either: the factory silently
falls back to the no-op NullScheduler and records "NullScheduler" in
the configuration. -/
theorem claim6_amended :
    (∀ (g : String → Except PyErr Unit) (hyps : Config) (name : String)
       (err : PyErr),
       hyps ("lossfxn") = some (.str name) →
       name ≠ "PoissonNLLLoss" → name ≠ "MSELoss" →
       g name = .error err →
       getOptimObjs g hyps = .error err) ∧
    (∀ (g : String → Except PyErr Unit) (hyps : Config) (name sname : String)
       (lrv l2v : HVal),
       hyps ("lossfxn") = some (.str name) →
       name ≠ "PoissonNLLLoss" → name ≠ "MSELoss" →
       g name = .ok () →
       hyps ("lr") = some lrv → hyps ("l2") = some l2v →
       hyps ("scheduler") = some (.str sname) →
       sname ≠ "ReduceLROnPlateau" → sname ≠ "MultiStepLR" →
       getOptimObjs g hyps
         = .ok (setKey hyps ("scheduler") (.str ("NullScheduler")), ⟨lrv, l2v⟩,
                Sched.nullSched, LossFn.otherGlobal name)) ∧
    (∀ (g : String → Except PyErr Unit) (hyps : Config) (sname : String)
       (lrv l2v : HVal),
       hyps ("lossfxn") = some (.str ("MSELoss")) →
       hyps ("lr") = some lrv → hyps ("l2") = some l2v →
       hyps ("scheduler") = some (.str sname) →
       sname ≠ "ReduceLROnPlateau" → sname ≠ "MultiStepLR" →
       getOptimObjs g hyps
         = .ok (setKey hyps ("scheduler") (.str ("NullScheduler")), ⟨lrv, l2v⟩,
                Sched.nullSched, LossFn.mse)) := by
  have hb1 : ∀ {α β : Type} (a : α) (f : α → Except PyErr β),
      (Except.ok a >>= f) = f a := fun _ _ => rfl
  have hb2 : ∀ {α β : Type} (e : PyErr) (f : α → Except PyErr β),
      ((Except.error e : Except PyErr α) >>= f) = .error e := fun _ _ => rfl
  have hp1 : ∀ {α : Type} (a : α), (pure a : Except PyErr α) = .ok a :=
    fun _ => rfl
  refine ⟨?_, ?_, ?_⟩
  · intro g hyps name err hl h1 h2 hg
    simp [getOptimObjs, getKey, hl, h1, h2, hg, hb1, hb2, hp1]
  · intro g hyps name sname lrv l2v hl h1 h2 hg hlr hl2 hs hs1 hs2
    simp [getOptimObjs, getKey, hl, h1, h2, hg, hlr, hl2, hs, hs1, hs2,
      hb1, hb2, hp1]
  · intro g hyps sname lrv l2v hl hlr hl2 hs h1 h2
    simp [getOptimObjs, getKey, hl, hlr, hl2, hs, h1, h2, hb1, hb2, hp1]

/-- Witness for C6 (amended): the unbound loss name "FancyLoss" fails
with its KeyError; the module-level non-loss name "Trainer" is silently
substituted for the loss; and the unknown scheduler name "StepLR"
succeeds with the silent NullScheduler substitution. -/
theorem claim6_amended_witness :
    getOptimObjs gEnvC6 cfgLossBad = .error (.keyError ("FancyLoss")) ∧
    getOptimObjs gEnvC6 cfgLossTrainer
      = .ok (setKey cfgLossTrainer ("scheduler") (.str ("NullScheduler")),
             ⟨.rat (1 / 1000), .rat 0⟩, Sched.nullSched,
             LossFn.otherGlobal ("Trainer")) ∧
    getOptimObjs gEnvC6 cfgSchedBad
      = .ok (setKey cfgSchedBad ("scheduler") (.str ("NullScheduler")),
             ⟨.rat (1 / 1000), .rat 0⟩, Sched.nullSched, LossFn.mse) :=
  ⟨claim6_amended.1 gEnvC6 cfgLossBad ("FancyLoss") (.keyError ("FancyLoss"))
     rfl (by decide) (by decide) rfl,
   claim6_amended.2.1 gEnvC6 cfgLossTrainer ("Trainer") ("none")
     (.rat (1 / 1000)) (.rat 0) rfl (by decide) (by decide) rfl rfl rfl rfl
     (by decide) (by decide),
   claim6_amended.2.2 gEnvC6 cfgSchedBad ("StepLR") (.rat (1 / 1000)) (.rat 0)
     rfl rfl rfl rfl (by decide) (by decide)⟩

/-- C8: if the chosen training variant (ordinary or retinotopic) raises
IndexError on a job, `Trainer.train` catches it and returns None; the
sweep runner writes nothing to the results file for that job, logs the
skip message to stdout, and continues with the remaining jobs from the
state it had reached. -/
theorem claim8_index_error_skipped {R : Type}
    (loopFx retinoFx : Config → Except PyErr R) (line : R → String)
    (pre post : List Config) (j : Config)
    (st st' : List String × List String) (msg : String)
    (hj : (if hvalTruthy (tryKey j ("retinotopic") (.bool false))
           then retinoFx else loopFx) j = .error (.indexError msg))
    (hpre : sweepGo loopFx retinoFx line pre st = .ok st') :
    trainerTrain loopFx retinoFx j = .ok none ∧
    sweepGo loopFx retinoFx line (pre ++ j :: post) st
      = sweepGo loopFx retinoFx line post (st'.1, st'.2 ++ [skipLine j]) := by
  have htr : trainerTrain loopFx retinoFx j = .ok none := by
    unfold trainerTrain
    rw [hj]
  refine ⟨htr, ?_⟩
  rw [sweepGo_append loopFx retinoFx line pre (j :: post) st, hpre]
  show sweepGo loopFx retinoFx line (j :: post) st' = _
  simp only [sweepGo, htr]

/-- Witness for C8: a single-job sweep whose ordinary training raises
IndexError; the results file stays empty and the skip line is logged. -/
theorem claim8_index_error_skipped_witness :
    trainerTrain loopFxIdx loopFxOk jobIdx = .ok none ∧
    sweepGo loopFxIdx loopFxOk (fun r => toString r) ([] ++ jobIdx :: [])
        (([] : List String), ([] : List String))
      = sweepGo loopFxIdx loopFxOk (fun r => toString r) []
          (([] : List String), [skipLine jobIdx]) :=
  claim8_index_error_skipped loopFxIdx loopFxOk (fun r => toString r)
    [] [] jobIdx (([] : List String), ([] : List String))
    (([] : List String), ([] : List String)) ("bad index") rfl rfl

/-- C10: in the retinotopic variant, every pruning-enabled run that
completes its epoch loop reaches the final result-writing step, whose
hyperparams.txt block reads the never-bound local `zero_dict`; the
resulting NameError is not caught by `Trainer.train`'s IndexError
handler, so the run fails (propagates the error) instead of returning a
RunResult. -/
theorem claim10_retinotopic_prune_fails {R : Type}
    (loopFx loopOutcome : Config → Except PyErr R) (hyps : Config)
    (r : R) (v : HVal)
    (hret : hvalTruthy (tryKey hyps ("retinotopic") (.bool false)) = true)
    (hpr : hyps ("prune") = some v)
    (hv : hvalTruthy v = true)
    (hloop : loopOutcome hyps = .ok r) :
    trainerTrain loopFx (retinotopicLoopFx loopOutcome) hyps
      = .error (.nameError ("zero_dict")) := by
  unfold trainerTrain
  rw [hret, if_pos rfl]
  unfold retinotopicLoopFx
  rw [hloop]
  unfold retinotopicFinalSave
  rw [hpr]
  dsimp only
  rw [if_pos hv]

/-- Witness for C10: a retinotopic, pruning-enabled configuration whose
epoch loop completes normally; the run nevertheless errors out with the
`zero_dict` NameError rather than producing a result. -/
theorem claim10_retinotopic_prune_fails_witness :
    trainerTrain loopFxOk (retinotopicLoopFx loopFxOk) hypsRetino
      = .error (.nameError ("zero_dict")) :=
  claim10_retinotopic_prune_fails loopFxOk loopFxOk hypsRetino 0
    (.bool true) rfl rfl rfl rfl

/-- Witness for C7: three batch losses per epoch with the accumulated
loss going non-finite on batch index 1; the loop run from the initial
state emits a single checkpoint, for epoch 0, carrying the epoch's
validation results. -/
theorem claim7_nan_batch_witness :
    (runBatches (ctxC7.batches ((initState ctxC7 esDisabled).epoch + 1))).2 = 1 + 1 ∧
    (epochStep ctxC7 (initState ctxC7 esDisabled)).2.1.epoch
        = (initState ctxC7 esDisabled).epoch + 1 ∧
    (epochStep ctxC7 (initState ctxC7 esDisabled)).2.1.valLoss
        = ctxC7.valLossF ((initState ctxC7 esDisabled).epoch + 1) ∧
    (epochStep ctxC7 (initState ctxC7 esDisabled)).2.1.valAcc
        = ctxC7.valAccF ((initState ctxC7 esDisabled).epoch + 1) ∧
    (epochStep ctxC7 (initState ctxC7 esDisabled)).2.2 = true ∧
    runLoop ctxC7 (initState ctxC7 esDisabled) (9 + 1)
        = [(epochStep ctxC7 (initState ctxC7 esDisabled)).2.1] :=
  claim7_nan_batch ctxC7 (initState ctxC7 esDisabled) 9 1 rfl
    (by decide) (by decide) (by decide)

end TDR
